import Mathlib

/-!
Verification development for the HEB cart automation core of the prepwise
repository (`src/prepwise/tools/heb_cart.py` together with the data models in
`src/prepwise/models/heb.py`).

The Python code is shallowly embedded as executable Lean definitions.  The
browser-automation layer (Playwright) is an uncontrolled external system; its
behaviour is modelled by explicit environment/oracle values that record, for
each interaction, which outcome the external world produced (timeout, raised
exception with a given message, successful match with extracted data, ...).
Everything the Python code itself computes (string cleaning, URL building,
result classification, counter bookkeeping, message texts) is translated
directly from the source.

Modelling conventions:
* Python character classes `\d`, `\s`, `\w` and `re.IGNORECASE` are modelled on
  their ASCII fragment (the code and the spec only exercise ASCII ingredient
  text).
* Python `float` prices/totals are modelled as `ℚ`; the numeric value is
  supplied by the environment, since it originates in scraped page text.
* Exceptions never escape the embedded functions that catch them in the
  source; those functions are total, and each `except` branch of the source
  corresponds to an explicit environment constructor here.
-/

namespace Prepwise

/-! ### Python character classes (ASCII fragment) -/

/-- Python regex `\s` (ASCII fragment): the six whitespace characters. -/
def pyIsSpace (c : Char) : Bool :=
  c = ' ' || c = '\t' || c = '\n' || c = '\r' || c = '\x0b' || c = '\x0c'

/-- Python regex `\d` (ASCII fragment). -/
def pyIsDigit (c : Char) : Bool :=
  '0' ≤ c && c ≤ '9'

/-- Python regex `\w` (ASCII fragment): alphanumerics and underscore. -/
def pyIsWord (c : Char) : Bool :=
  c.isAlphanum || c = '_'

/-! ### `re.sub(r"^\d+[\d./\s]*", "", ...)` — leading quantity removal -/

/-- Characters of the class `[\d./\s]` in the leading-quantity pattern. -/
def qtyChar (c : Char) : Bool :=
  pyIsDigit c || c = '.' || c = '/' || pyIsSpace c

/-- `re.sub(r"^\d+[\d./\s]*", "", s)`: anchored at the start, one or more
digits followed greedily by digits, periods, slashes and whitespace. -/
def stripLeadingQuantity (cs : List Char) : List Char :=
  match cs with
  | [] => []
  | c :: _ => if pyIsDigit c then cs.dropWhile qtyChar else cs

/-! ### `re.sub(r"\([^)]*\)", "", ...)` — parenthetical removal -/

/-- One left-to-right pass of `re.sub(r"\([^)]*\)", "", s)`: each `(` is
matched with the first following `)`; a `(` with no later `)` stays.  The
fuel argument (instantiated with the string length) only serves structural
recursion; every recursive call consumes at least one character, so fuel
`cs.length` never runs out before `cs` is exhausted. -/
def removeParensGo : Nat → List Char → List Char
  | 0, cs => cs
  | _ + 1, [] => []
  | fuel + 1, c :: rest =>
    if c = '(' then
      match rest.dropWhile (fun x => !(x = ')')) with
      | ')' :: r2 => removeParensGo fuel r2
      | _ => c :: removeParensGo fuel rest
    else c :: removeParensGo fuel rest

def removeParens (cs : List Char) : List Char :=
  removeParensGo cs.length cs

/-! ### Word-pattern substitution

Both the unit pattern `\b(u1|u2|...)\b\.?` (a single `re.sub` with an
alternation, `re.IGNORECASE`) and each preparation-word pattern
`\b{word}\b,?` (one `re.sub` per word) have the same shape: a word boundary,
an ordered list of literal alternatives (regex alternation tries them left to
right, a greedy `s?` inside an alternative tries the longer expansion first),
a word boundary, and one optional trailing punctuation character.  The
alternatives are expanded into that ordered literal list below. -/

/-- Case-insensitive literal match: drop `lit` (stored lowercase) from the
front of `cs`, lowering each text character, as `re.IGNORECASE` does. -/
def dropLitCI : List Char → List Char → Option (List Char)
  | [], cs => some cs
  | _ :: _, [] => none
  | l :: ls, c :: cs => if c.toLower = l then dropLitCI ls cs else none

/-- `\b` after a literal that ends in a word character: the next character is
absent or not a word character. -/
def wordEndOk : List Char → Bool
  | [] => true
  | c :: _ => !pyIsWord c

/-- Try to match one literal alternative at the current position, followed by
`\b` and the optional punctuation character.  All alternatives used in this
file end in a word character (a letter), so the closing `\b` amounts to
`wordEndOk`.  Returns, on success, whether the last consumed character is a
word character (true unless the punctuation was consumed — the punctuation
characters `.` and `,` are not word characters) and the rest of the text. -/
def tryAlt (alt : List Char) (punct : Char) (cs : List Char) : Option (Bool × List Char) :=
  match alt with
  | [] => none
  | _ :: _ =>
    match dropLitCI alt cs with
    | none => none
    | some rest =>
      if wordEndOk rest then
        match rest with
        | c :: r2 => if c = punct then some (false, r2) else some (true, rest)
        | [] => some (true, [])
      else none

/-- Regex alternation: try the alternatives in order. -/
def tryAlts (alts : List (List Char)) (punct : Char) (cs : List Char) :
    Option (Bool × List Char) :=
  match alts with
  | [] => none
  | a :: more =>
    match tryAlt a punct cs with
    | some r => some r
    | none => tryAlts more punct cs

/-- Left-to-right scan of `re.sub` for a word pattern: at each position whose
predecessor is not a word character (the leading `\b`; every alternative
starts with a word character), the alternatives are tried; on a match the
matched span is dropped and scanning resumes after it, otherwise one
character is emitted.  `prevW` records whether the previous character of the
original text is a word character.  The fuel argument (instantiated with the
string length) only serves structural recursion; every step consumes at
least one character. -/
def subWordGo (alts : List (List Char)) (punct : Char) : Nat → Bool → List Char → List Char
  | 0, _, cs => cs
  | _ + 1, _, [] => []
  | fuel + 1, prevW, c :: rest =>
    if prevW then c :: subWordGo alts punct fuel (pyIsWord c) rest
    else
      match tryAlts alts punct (c :: rest) with
      | some (b, rest2) => subWordGo alts punct fuel b rest2
      | none => c :: subWordGo alts punct fuel (pyIsWord c) rest

def subWord (alts : List (List Char)) (punct : Char) (cs : List Char) : List Char :=
  subWordGo alts punct cs.length false cs

/-- The unit alternation of the source, in regex matching order: the
alternatives in source order, each `s?`/`e?` expanded greedy-first.  Note
that `boxes?` expands to `boxes`/`boxe` (not `box`), `tsp?` to `tsp`/`ts`,
and `bunche?s?` to its four combinations. -/
def unitAlts : List (List Char) :=
  ["cups".data, "cup".data,
   "tbsp".data, "tbs".data,
   "tsp".data, "ts".data,
   "tablespoons".data, "tablespoon".data,
   "teaspoons".data, "teaspoon".data,
   "oz".data,
   "ounces".data, "ounce".data,
   "lbs".data, "lb".data,
   "pounds".data, "pound".data,
   "grams".data, "gram".data,
   "g".data,
   "ml".data,
   "liters".data, "liter".data,
   "quarts".data, "quart".data,
   "pints".data, "pint".data,
   "gallons".data, "gallon".data,
   "cloves".data, "clove".data,
   "heads".data, "head".data,
   "bunches".data, "bunche".data, "bunchs".data, "bunch".data,
   "cans".data, "can".data,
   "jars".data, "jar".data,
   "packages".data, "package".data,
   "bags".data, "bag".data,
   "boxes".data, "boxe".data,
   "containers".data, "container".data,
   "small".data, "medium".data, "large".data, "extra-large".data]

/-- The preparation words of the source, in source order; each is removed by
its own `re.sub(rf"\b{word}\b,?", "", ..., re.IGNORECASE)` pass. -/
def prepWords : List (List Char) :=
  ["chopped".data, "diced".data, "minced".data, "sliced".data, "cubed".data,
   "crushed".data, "grated".data, "shredded".data, "melted".data,
   "softened".data, "fresh".data, "frozen".data, "canned".data, "dried".data,
   "ground".data, "optional".data, "to taste".data, "for serving".data,
   "divided".data]

/-! ### Whitespace collapse and edge strip -/

/-- `re.sub(r"\s+", " ", s)`: every maximal whitespace run becomes one `' '`. -/
def collapseSpaces : List Char → List Char
  | [] => []
  | [c] => if pyIsSpace c then [' '] else [c]
  | c1 :: c2 :: rest =>
    if pyIsSpace c1 && pyIsSpace c2 then collapseSpaces (c2 :: rest)
    else (if pyIsSpace c1 then ' ' else c1) :: collapseSpaces (c2 :: rest)

/-- The characters of `str.strip(" ,.-")`. -/
def stripChar (c : Char) : Bool :=
  c = ' ' || c = ',' || c = '.' || c = '-'

/-- `s.strip(" ,.-")`: remove those characters from both ends. -/
def pyStripEdges (cs : List Char) : List Char :=
  ((cs.dropWhile stripChar).reverse.dropWhile stripChar).reverse

/-! ### `_clean_ingredient_for_search` -/

/-- `_clean_ingredient_for_search` from `heb_cart.py`: leading quantity, then
parentheticals, then the single units pass, then one pass per preparation
word, then whitespace collapse and edge strip, in source order. -/
def _clean_ingredient_for_search (ingredient : String) : String :=
  let cs1 := stripLeadingQuantity ingredient.data
  let cs2 := removeParens cs1
  let cs3 := subWord unitAlts '.' cs2
  let cs4 := prepWords.foldl (fun acc w => subWord [w] ',' acc) cs3
  let cs5 := collapseSpaces cs4
  String.mk (pyStripEdges cs5)

/-! ### `str.split()` / `" ".join` and `_get_search_suggestion` -/

/-- Python `str.split()` with no arguments: maximal runs of non-whitespace,
empty strings discarded.  Fuel as in `subWordGo`. -/
def pySplitGo : Nat → List Char → List String
  | 0, _ => []
  | _ + 1, [] => []
  | fuel + 1, c :: rest =>
    if pyIsSpace c then pySplitGo fuel rest
    else
      String.mk ((c :: rest).takeWhile (fun x => !pyIsSpace x)) ::
        pySplitGo fuel ((c :: rest).dropWhile (fun x => !pyIsSpace x))

def pySplit (s : String) : List String :=
  pySplitGo s.data.length s.data

/-- Python `" ".join(ws)`. -/
def pyJoinSpace : List String → String
  | [] => ""
  | [w] => w
  | w :: x :: rest => w ++ " " ++ pyJoinSpace (x :: rest)

/-- `_get_search_suggestion` from `heb_cart.py`: clean, split; with more than
two words keep the last two (`" ".join(words[-2:])`), otherwise annotate the
cleaned text. -/
def _get_search_suggestion (ingredient : String) : String :=
  let cleaned := _clean_ingredient_for_search ingredient
  let words := pySplit cleaned
  if 2 < words.length then pyJoinSpace (words.drop (words.length - 2))
  else "Try simpler search: " ++ cleaned

/-! ### `urllib.parse.quote` -/

/-- UTF-8 encoding of one character, as a list of byte values. -/
def utf8Bytes (c : Char) : List Nat :=
  let n := c.toNat
  if n < 128 then [n]
  else if n < 2048 then [192 + n / 64, 128 + n % 64]
  else if n < 65536 then [224 + n / 4096, 128 + (n / 64) % 64, 128 + n % 64]
  else [240 + n / 262144, 128 + (n / 4096) % 64, 128 + (n / 64) % 64, 128 + n % 64]

/-- Uppercase hexadecimal digit, as `quote` emits. -/
def hexUpper (n : Nat) : Char :=
  if n < 10 then Char.ofNat (48 + n) else Char.ofNat (55 + n)

/-- `urllib.parse.quote` treatment of a single byte: the always-safe bytes
(ASCII letters, digits, `_ . - ~`) and the default-safe `/` pass through,
everything else becomes `%XX`. -/
def quoteByte (b : Nat) : List Char :=
  if (65 ≤ b && b ≤ 90) || (97 ≤ b && b ≤ 122) || (48 ≤ b && b ≤ 57) ||
      b = 95 || b = 46 || b = 45 || b = 126 || b = 47 then
    [Char.ofNat b]
  else
    ['%', hexUpper (b / 16), hexUpper (b % 16)]

/-- `urllib.parse.quote(s)` with the default `safe="/"`. -/
def pyQuote (s : String) : String :=
  String.mk ((s.data.flatMap utf8Bytes).flatMap quoteByte)

/-! ### Data model (`models/heb.py`) -/

/-- `HEBCartItem`: one outcome per input ingredient string.  `price` is a
Python float, modelled as `ℚ`. -/
structure HEBCartItem where
  search_term : String
  product_name : Option String := none
  price : Option ℚ := none
  quantity : Nat := 1
  success : Bool
  error : Option String := none
  suggestion : Option String := none
deriving DecidableEq

/-- `HEBCartResult`: the aggregate over one procurement run. -/
structure HEBCartResult where
  items : List HEBCartItem := []
  total_added : Nat := 0
  total_not_found : Nat := 0
  total_errors : Nat := 0
  cart_total : Option ℚ := none
  cart_url : String := "https://www.heb.com/cart"
deriving DecidableEq

/-- `HEBSessionStatus`. -/
structure HEBSessionStatus where
  logged_in : Bool
  session_exists : Bool
  message : String
deriving DecidableEq

/-! ### URLs (module constants of `heb_cart.py`) -/

def HEB_BASE_URL : String := "https://www.heb.com"

def HEB_SEARCH_URL : String := HEB_BASE_URL ++ "/search/?q="

def HEB_CART_URL : String := HEB_BASE_URL ++ "/cart"

/-! ### `_add_single_item`

The interaction with the live site is modelled by an oracle value describing
which of the four control-flow paths of `_add_single_item` the external world
selects for this item:
* `timeout` — `page.wait_for_selector` raises (the inner `except Exception`
  branch at the product wait: the expected no-results condition);
* `noAddButton` — the results loaded but `add_btn.count() == 0`;
* `raised msg` — some other awaited call (navigation, locator queries, the
  add-to-cart click) raises an exception whose `str` is `msg`, reaching the
  outer `except Exception as e` branch;
* `added name price` — the click succeeds; `name`/`price` are whatever the
  best-effort extraction produced (its own failures are swallowed by
  `except Exception: pass`, leaving the corresponding option `none`). -/

inductive ItemOutcome where
  | timeout : ItemOutcome
  | noAddButton : ItemOutcome
  | raised : String → ItemOutcome
  | added : Option String → Option ℚ → ItemOutcome

/-- The result of `_add_single_item` together with the URL the function
navigates to (`page.goto(HEB_SEARCH_URL + quote(search_term))`, attempted on
every path before the outcome is known). -/
structure AddAttempt where
  nav_url : String
  item : HEBCartItem
deriving DecidableEq

/-- `_add_single_item` from `heb_cart.py`.  The local `search_term` is the
cleaned text and feeds only the URL; every returned item carries the raw
`ingredient` in its `search_term` field, as in the source. -/
def _add_single_item (outcome : ItemOutcome) (ingredient : String) : AddAttempt :=
  let search_term := _clean_ingredient_for_search ingredient
  let url := HEB_SEARCH_URL ++ pyQuote search_term
  match outcome with
  | ItemOutcome.timeout =>
    ⟨url, { search_term := ingredient, success := false,
            suggestion := some (_get_search_suggestion ingredient) }⟩
  | ItemOutcome.noAddButton =>
    ⟨url, { search_term := ingredient, success := false,
            suggestion := some (_get_search_suggestion ingredient) }⟩
  | ItemOutcome.raised msg =>
    ⟨url, { search_term := ingredient, success := false, error := some msg }⟩
  | ItemOutcome.added name price =>
    ⟨url, { search_term := ingredient, product_name := name, price := price,
            success := true }⟩

/-! ### `add_items_to_cart` -/

/-- Python truthiness of an optional string (`elif item_result.error:`):
`None` and `""` are falsy. -/
def pyTruthyStr : Option String → Bool
  | none => false
  | some s => !(s == "")

/-- The body of the per-ingredient loop of `add_items_to_cart`: append the
item, then bump exactly one counter — `success` → `total_added`, else a
truthy `error` → `total_errors`, else `total_not_found`. -/
def classifyItem (r : HEBCartResult) (it : HEBCartItem) : HEBCartResult :=
  let r1 := { r with items := r.items ++ [it] }
  if it.success then { r1 with total_added := r1.total_added + 1 }
  else if pyTruthyStr it.error then { r1 with total_errors := r1.total_errors + 1 }
  else { r1 with total_not_found := r1.total_not_found + 1 }

/-- The per-ingredient loop, with the oracle indexed by item position (the
inter-item `asyncio.sleep` pause has no effect on the data and is omitted). -/
def runItems (outcomes : Nat → ItemOutcome) (idx : Nat) (ingredients : List String)
    (acc : HEBCartResult) : HEBCartResult :=
  match ingredients with
  | [] => acc
  | ing :: rest =>
    runItems outcomes (idx + 1) rest
      (classifyItem acc (_add_single_item (outcomes idx) ing).item)

/-- Environment of one `add_items_to_cart` run: the per-item oracle, and the
outcome of the post-run cart-total probe — `some v` when navigation, total
element lookup, text extraction, regex match and `float` conversion all
succeed yielding `v`, `none` when any of them fails or comes back falsy (the
probe `except Exception` branch merely logs). -/
structure CartEnv where
  outcomes : Nat → ItemOutcome
  probe : Option ℚ

/-- The best-effort cart-total probe: on success it assigns `cart_total`,
on any failure it leaves the result untouched. -/
def applyCartTotalProbe (probe : Option ℚ) (r : HEBCartResult) : HEBCartResult :=
  match probe with
  | some v => { r with cart_total := some v }
  | none => r

/-- `add_items_to_cart` from `heb_cart.py`: a fresh `HEBCartResult`, the
per-ingredient loop, then the cart-total probe. -/
def add_items_to_cart (env : CartEnv) (ingredients : List String) : HEBCartResult :=
  applyCartTotalProbe env.probe (runItems env.outcomes 0 ingredients {})

/-- The predicate counted by the `if item_result.success:` branch of the code. -/
def isAddedItem (it : HEBCartItem) : Bool := it.success

/-- The predicate counted by the `elif item_result.error:` branch of the code: failed
and with a truthy (present and non-empty) error. -/
def isErrorItem (it : HEBCartItem) : Bool := !it.success && pyTruthyStr it.error

/-- The predicate of the final `else` branch of the code: failed with an absent or
empty error. -/
def isNotFoundItem (it : HEBCartItem) : Bool := !it.success && !pyTruthyStr it.error

/-- The loop invariant: each counter equals the count of its predicate over
the collected items. -/
def countsInv (r : HEBCartResult) : Prop :=
  r.total_added = r.items.countP isAddedItem ∧
  r.total_errors = r.items.countP isErrorItem ∧
  r.total_not_found = r.items.countP isNotFoundItem

/-! ### `check_session_status` -/

/-- Environment of one `check_session_status` call: whether the profile
directory exists and is non-empty, the outcome of launching the headless
context, the outcome of the navigation/indicator check (`page.goto`,
`wait_for_load_state`, `locator(...).count()`), and a possible failure of the
`finally` cleanup (`context.close()` / `playwright.stop()`), whose exception
would replace the pending result at the outer `except`. -/
structure SessionEnv where
  sessionExists : Bool
  launch : Except String Unit
  nav : Except String Bool
  closeErr : Option String

/-- `check_session_status` from `heb_cart.py`, paired with an observation of
its side effects: whether `get_browser_context` was invoked at all, and how
many page navigations were performed (0 on the cheap path and when the launch
itself fails, 1 once `page.goto` has been attempted).  Every exception path
of the source returns a status, so the embedding is a total function. -/
def check_session_status (env : SessionEnv) : HEBSessionStatus × Bool × Nat :=
  if env.sessionExists = false then
    (⟨false, false, "No HEB session found. You\x27ll need to log in."⟩, false, 0)
  else
    match env.launch with
    | Except.error e =>
      (⟨false, env.sessionExists, "Could not verify session status: " ++ e⟩, true, 0)
    | Except.ok _ =>
      match env.nav, env.closeErr with
      | Except.error e, none =>
        (⟨false, env.sessionExists, "Could not verify session status: " ++ e⟩, true, 1)
      | Except.error _, some e2 =>
        (⟨false, env.sessionExists, "Could not verify session status: " ++ e2⟩, true, 1)
      | Except.ok _, some e2 =>
        (⟨false, env.sessionExists, "Could not verify session status: " ++ e2⟩, true, 1)
      | Except.ok b, none =>
        if b then (⟨true, true, "You are logged in to HEB."⟩, true, 1)
        else (⟨false, true, "Session exists but you may need to log in again."⟩, true, 1)

/-! ### Input-shape predicates (decidable, used to state C9) -/

/-- The input contains no (ASCII) digit. -/
def noDigits (s : String) : Bool := s.data.all (fun c => !pyIsDigit c)

/-- The input contains no opening parenthesis. -/
def noParens (s : String) : Bool := s.data.all (fun c => !(c == '('))

/-- The leading word boundary `\b` holds at position `n`: the position is
the start of the string, or the previous character is not a word character
(every alternative then supplies the word character after the boundary). -/
def atWordBoundary (cs : List Char) (n : Nat) : Bool :=
  n == 0 || !pyIsWord (cs.getD (n - 1) ' ')

/-- Whether the character just before position `n` of `cs` is a word
character, where `prevW` is that information for position 0 (the scanner of
`subWordGo` starts a full pass with `prevW = false`). -/
def prevIsWordAt (prevW : Bool) (cs : List Char) : Nat → Bool
  | 0 => prevW
  | n + 1 => pyIsWord (cs.getD n ' ')

/-- No whole-word occurrence of a unit token: at no position with a leading
word boundary does the unit pattern match (the pattern requires `\b` on both
sides, so positions inside a word cannot start a match). -/
def noUnitOccurrence (s : String) : Bool :=
  (List.range (s.data.length + 1)).all
    (fun n => !atWordBoundary s.data n || (tryAlts unitAlts '.' (s.data.drop n)).isNone)

/-- No whole-word occurrence of a preparation token: at no position with a
leading word boundary does any preparation-word pattern match. -/
def noPrepOccurrence (s : String) : Bool :=
  prepWords.all (fun w =>
    (List.range (s.data.length + 1)).all
      (fun n => !atWordBoundary s.data n || (tryAlts [w] ',' (s.data.drop n)).isNone))

/-- Whitespace is already normalized: every whitespace character is a plain
space and no two adjacent characters are both whitespace. -/
def wsOk : List Char → Bool
  | [] => true
  | [c] => !pyIsSpace c || (c == ' ')
  | c1 :: c2 :: rest =>
    (!pyIsSpace c1 || ((c1 == ' ') && !pyIsSpace c2)) && wsOk (c2 :: rest)

def spacingNormalized (s : String) : Bool := wsOk s.data

/-- Neither the first nor the last character is among the characters of `str.strip(" ,.-")`. -/
def noEdgeStripChars (s : String) : Bool :=
  !stripChar (s.data.headD 'a') && !stripChar (s.data.reverse.headD 'a')

/-! ## Helper lemmas -/

/-- A string append whose left part is non-empty is non-empty. -/
theorem string_append_ne_empty_left (t u : String) (ht : t.data ≠ []) : t ++ u ≠ "" := by
  intro h
  have hd : t.data ++ u.data = ([] : List Char) := by
    have h2 := congrArg String.data h
    rwa [String.data_append] at h2
  exact ht (List.append_eq_nil.mp hd).1

/-- `_get_search_suggestion` always returns a non-empty string: the
more-than-two-words branch joins two words with a space, the other branch
prefixes a fixed annotation. -/
theorem get_search_suggestion_ne_empty (s : String) : _get_search_suggestion s ≠ "" := by
  by_cases h : 2 < (pySplit (_clean_ingredient_for_search s)).length
  · have hlen : ((pySplit (_clean_ingredient_for_search s)).drop
        ((pySplit (_clean_ingredient_for_search s)).length - 2)).length = 2 := by
      rw [List.length_drop]; omega
    obtain ⟨a, b, hab⟩ := List.length_eq_two.mp hlen
    show (if 2 < (pySplit (_clean_ingredient_for_search s)).length then
        pyJoinSpace ((pySplit (_clean_ingredient_for_search s)).drop
          ((pySplit (_clean_ingredient_for_search s)).length - 2))
      else "Try simpler search: " ++ _clean_ingredient_for_search s) ≠ ""
    rw [if_pos h, hab]
    show a ++ " " ++ b ≠ ""
    apply string_append_ne_empty_left
    intro hh
    rw [String.data_append] at hh
    exact List.cons_ne_nil ' ' [] (List.append_eq_nil.mp hh).2
  · show (if 2 < (pySplit (_clean_ingredient_for_search s)).length then
        pyJoinSpace ((pySplit (_clean_ingredient_for_search s)).drop
          ((pySplit (_clean_ingredient_for_search s)).length - 2))
      else "Try simpler search: " ++ _clean_ingredient_for_search s) ≠ ""
    rw [if_neg h]
    apply string_append_ne_empty_left
    intro hh
    exact List.noConfusion hh

/-! ## Claims about `_add_single_item` (C2, C3, C4) -/

/-- C2 counterexample: an exception whose `str` is the empty string reaches
the outer handler, so `error` is set to `some ""`, which is not a non-empty
message; the claim that `error` is always set to a non-empty message on the
exception path is therefore false on the code. -/
theorem claim2_counterexample :
    (_add_single_item (ItemOutcome.raised "") "butter").item.success = false ∧
    (_add_single_item (ItemOutcome.raised "") "butter").item.suggestion = none ∧
    (_add_single_item (ItemOutcome.raised "") "butter").item.error = some "" ∧
    ¬(∃ m : String,
        (_add_single_item (ItemOutcome.raised "") "butter").item.error = some m ∧ m ≠ "") := by
  refine ⟨rfl, rfl, rfl, ?_⟩
  rintro ⟨m, hm, hne⟩
  have h0 : (some "" : Option String) = some m := hm
  exact hne (Option.some.inj h0).symm

/-- C2 (amended): whenever processing raises an unexpected exception, the
returned item has `success = false`, `error` set to the message of the exception
(which may be empty), and `suggestion` unset; moreover on no path of
`_add_single_item` are `error` and `suggestion` both populated, and the
function is total (the exception never propagates). -/
theorem claim2_amended_error_path :
    (∀ msg ing : String,
      (_add_single_item (ItemOutcome.raised msg) ing).item.success = false ∧
      (_add_single_item (ItemOutcome.raised msg) ing).item.error = some msg ∧
      (_add_single_item (ItemOutcome.raised msg) ing).item.suggestion = none) ∧
    (∀ (o : ItemOutcome) (ing : String),
      (_add_single_item o ing).item.error = none ∨
      (_add_single_item o ing).item.suggestion = none) := by
  constructor
  · intro msg ing
    exact ⟨rfl, rfl, rfl⟩
  · intro o ing
    cases o with
    | timeout => exact Or.inl rfl
    | noAddButton => exact Or.inl rfl
    | raised msg => exact Or.inr rfl
    | added name price => exact Or.inl rfl

/-- A string other than the empty one has positive length. -/
theorem string_length_pos_of_ne_empty (s : String) (h : s ≠ "") : 0 < s.length := by
  cases s with
  | mk data =>
    cases data with
    | nil => exact absurd rfl h
    | cons c rest => simp [String.length]

/-- C3: on the product-wait timeout and on the missing add-to-cart control,
`_add_single_item` returns `success = false`, `error` unset and `suggestion`
set to `_get_search_suggestion` of the raw ingredient, which is a non-empty
string. -/
theorem claim3_not_found_path (ing : String) :
    (_add_single_item ItemOutcome.timeout ing).item =
      { search_term := ing, success := false,
        suggestion := some (_get_search_suggestion ing) } ∧
    (_add_single_item ItemOutcome.noAddButton ing).item =
      { search_term := ing, success := false,
        suggestion := some (_get_search_suggestion ing) } ∧
    0 < (_get_search_suggestion ing).length :=
  ⟨rfl, rfl, string_length_pos_of_ne_empty _ (get_search_suggestion_ne_empty ing)⟩

/-- C4: on every path `_add_single_item` navigates to the search endpoint
with the cleaned, URL-encoded term, while the `search_term` field of the
returned item is the raw input string unchanged. -/
theorem claim4_search_term_preserved (o : ItemOutcome) (ing : String) :
    (_add_single_item o ing).nav_url =
      HEB_SEARCH_URL ++ pyQuote (_clean_ingredient_for_search ing) ∧
    (_add_single_item o ing).item.search_term = ing := by
  cases o <;> exact ⟨rfl, rfl⟩

/-! ## Claim about `check_session_status` (C5) -/

/-- C5: with the profile directory absent or empty, `check_session_status`
returns `logged_in = false`, `session_exists = false` with the message from the source, without opening a browser or navigating; and whenever navigation in the
browser-based check fails, the failure is caught and reported as
`logged_in = false`, `session_exists = true` with the error text embedded in
the message.  The embedding is a total function: no exception propagates. -/
theorem claim5_session_status (env : SessionEnv) :
    (env.sessionExists = false →
      check_session_status env =
        (⟨false, false, "No HEB session found. You\x27ll need to log in."⟩, false, 0)) ∧
    (env.sessionExists = true →
      ∀ e : String, env.nav = Except.error e →
        (check_session_status env).1.logged_in = false ∧
        (check_session_status env).1.session_exists = true ∧
        (env.launch = Except.ok () → env.closeErr = none →
          (check_session_status env).1.message =
            "Could not verify session status: " ++ e)) := by
  obtain ⟨se, la, na, ce⟩ := env
  constructor
  · rintro rfl
    rfl
  · rintro rfl e rfl
    cases la with
    | error e0 =>
      exact ⟨rfl, rfl, fun hok => Except.noConfusion hok⟩
    | ok u =>
      cases u
      cases ce with
      | none => exact ⟨rfl, rfl, fun _ _ => rfl⟩
      | some e2 => exact ⟨rfl, rfl, fun _ hce => Option.noConfusion hce⟩

/-- Witness for C5 at concrete environments: an absent session directory, and
a navigation failure "net down" with an existing session. -/
theorem claim5_session_status_witness :
    (check_session_status ⟨false, Except.ok (), Except.ok true, none⟩ =
      (⟨false, false, "No HEB session found. You\x27ll need to log in."⟩, false, 0)) ∧
    ((check_session_status ⟨true, Except.ok (), Except.error "net down", none⟩).1.logged_in =
        false ∧
     (check_session_status ⟨true, Except.ok (), Except.error "net down", none⟩).1.session_exists =
        true ∧
     (check_session_status ⟨true, Except.ok (), Except.error "net down", none⟩).1.message =
        "Could not verify session status: " ++ "net down") :=
  ⟨(claim5_session_status ⟨false, Except.ok (), Except.ok true, none⟩).1 rfl,
   ⟨((claim5_session_status ⟨true, Except.ok (), Except.error "net down", none⟩).2 rfl
       "net down" rfl).1,
    ((claim5_session_status ⟨true, Except.ok (), Except.error "net down", none⟩).2 rfl
       "net down" rfl).2.1,
    ((claim5_session_status ⟨true, Except.ok (), Except.error "net down", none⟩).2 rfl
       "net down" rfl).2.2 rfl rfl⟩⟩

/-! ## Claim about the cart-total probe (C6) -/

/-- The loop never assigns `cart_total`. -/
theorem runItems_cart_total (outcomes : Nat → ItemOutcome) (ings : List String) :
    ∀ (idx : Nat) (acc : HEBCartResult),
      (runItems outcomes idx ings acc).cart_total = acc.cart_total := by
  induction ings with
  | nil => intro idx acc; rfl
  | cons ing rest ih =>
    intro idx acc
    have hstep :
        (classifyItem acc (_add_single_item (outcomes idx) ing).item).cart_total =
          acc.cart_total := by
      unfold classifyItem
      split
      · rfl
      · split <;> rfl
    exact (ih (idx + 1) (classifyItem acc (_add_single_item (outcomes idx) ing).item)).trans hstep

/-- The probe only ever touches `cart_total`. -/
theorem applyCartTotalProbe_frame (p : Option ℚ) (r : HEBCartResult) :
    (applyCartTotalProbe p r).items = r.items ∧
    (applyCartTotalProbe p r).total_added = r.total_added ∧
    (applyCartTotalProbe p r).total_not_found = r.total_not_found ∧
    (applyCartTotalProbe p r).total_errors = r.total_errors := by
  cases p <;> exact ⟨rfl, rfl, rfl, rfl⟩

/-- C6: when the cart-total probe fails, `cart_total` remains unset, and the
items sequence and the three counters are exactly those of the same run with
any other probe outcome; the probe cannot change them.  The embedding is
total, so no probe exception escapes the orchestrator. -/
theorem claim6_probe_frame (outcomes : Nat → ItemOutcome) (probe : Option ℚ)
    (ings : List String) :
    (add_items_to_cart ⟨outcomes, none⟩ ings).cart_total = none ∧
    (add_items_to_cart ⟨outcomes, none⟩ ings).items =
      (add_items_to_cart ⟨outcomes, probe⟩ ings).items ∧
    (add_items_to_cart ⟨outcomes, none⟩ ings).total_added =
      (add_items_to_cart ⟨outcomes, probe⟩ ings).total_added ∧
    (add_items_to_cart ⟨outcomes, none⟩ ings).total_not_found =
      (add_items_to_cart ⟨outcomes, probe⟩ ings).total_not_found ∧
    (add_items_to_cart ⟨outcomes, none⟩ ings).total_errors =
      (add_items_to_cart ⟨outcomes, probe⟩ ings).total_errors := by
  have hframe := applyCartTotalProbe_frame probe (runItems outcomes 0 ings {})
  exact ⟨runItems_cart_total outcomes ings 0 {}, hframe.1.symm, hframe.2.1.symm,
    hframe.2.2.1.symm, hframe.2.2.2.symm⟩

/-! ## Claims about the counters of the orchestrator (C1, C10) -/

theorem classifyItem_items (r : HEBCartResult) (it : HEBCartItem) :
    (classifyItem r it).items = r.items ++ [it] := by
  unfold classifyItem
  split
  · rfl
  · split <;> rfl

theorem classifyItem_countsInv {r : HEBCartResult} (it : HEBCartItem) (h : countsInv r) :
    countsInv (classifyItem r it) := by
  obtain ⟨h1, h2, h3⟩ := h
  unfold countsInv classifyItem
  cases hs : it.success with
  | true =>
    simp only [hs, if_true]
    refine ⟨?_, ?_, ?_⟩ <;>
      simp [List.countP_append, List.countP_cons, isAddedItem, isErrorItem, isNotFoundItem,
        hs, h1, h2, h3]
  | false =>
    cases he : pyTruthyStr it.error with
    | true =>
      simp only [hs, he, Bool.false_eq_true, if_false, if_true]
      refine ⟨?_, ?_, ?_⟩ <;>
        simp [List.countP_append, List.countP_cons, isAddedItem, isErrorItem, isNotFoundItem,
          hs, he, h1, h2, h3]
    | false =>
      simp only [hs, he, Bool.false_eq_true, if_false]
      refine ⟨?_, ?_, ?_⟩ <;>
        simp [List.countP_append, List.countP_cons, isAddedItem, isErrorItem, isNotFoundItem,
          hs, he, h1, h2, h3]

theorem runItems_countsInv (outcomes : Nat → ItemOutcome) (ings : List String) :
    ∀ (idx : Nat) (acc : HEBCartResult),
      countsInv acc → countsInv (runItems outcomes idx ings acc) := by
  induction ings with
  | nil => intro idx acc h; exact h
  | cons ing rest ih =>
    intro idx acc h
    exact ih (idx + 1) _ (classifyItem_countsInv _ h)

theorem runItems_length (outcomes : Nat → ItemOutcome) (ings : List String) :
    ∀ (idx : Nat) (acc : HEBCartResult),
      (runItems outcomes idx ings acc).items.length = acc.items.length + ings.length := by
  induction ings with
  | nil => intro idx acc; rfl
  | cons ing rest ih =>
    intro idx acc
    have hs : (classifyItem acc (_add_single_item (outcomes idx) ing).item).items.length =
        acc.items.length + 1 := by
      rw [classifyItem_items, List.length_append]
      rfl
    show (runItems outcomes (idx + 1) rest
        (classifyItem acc (_add_single_item (outcomes idx) ing).item)).items.length =
      acc.items.length + (ing :: rest).length
    rw [ih (idx + 1) _, hs, List.length_cons]
    omega

/-- The three classification predicates partition any item list. -/
theorem countP_partition (l : List HEBCartItem) :
    l.countP isAddedItem + l.countP isErrorItem + l.countP isNotFoundItem = l.length := by
  induction l with
  | nil => rfl
  | cons it rest ih =>
    simp only [List.countP_cons, List.length_cons]
    cases hs : it.success with
    | true =>
      simp [isAddedItem, isErrorItem, isNotFoundItem, hs]
      omega
    | false =>
      cases he : pyTruthyStr it.error with
      | true =>
        simp [isAddedItem, isErrorItem, isNotFoundItem, hs, he]
        omega
      | false =>
        simp [isAddedItem, isErrorItem, isNotFoundItem, hs, he]
        omega

/-- C1 counterexample: in a run whose single item fails with an exception
whose message is the empty string, `total_errors` (0) differs from the number
of items with `success = false` and `error` set (1): classification is not by
presence of `error`. -/
theorem claim1_counterexample :
    (add_items_to_cart ⟨fun _ => ItemOutcome.raised "", none⟩ ["egg"]).total_errors ≠
      ((add_items_to_cart ⟨fun _ => ItemOutcome.raised "", none⟩ ["egg"]).items.countP
        (fun it => !it.success && it.error.isSome)) := by decide

/-- C1 (amended): for every completed run, the three counters sum to the
number of input items, and each counter equals the count of items matching
its predicate, where the error/not-found split follows Python truthiness of
`error`: `success = true` → `total_added`; `success = false` with a non-empty
`error` → `total_errors`; `success = false` with `error` absent or empty →
`total_not_found`.  The predicates are mutually exclusive and exhaustive, so
every item lands in exactly one counter. -/
theorem claim1_amended_counters (env : CartEnv) (ings : List String) :
    (add_items_to_cart env ings).total_added + (add_items_to_cart env ings).total_not_found +
        (add_items_to_cart env ings).total_errors = ings.length ∧
    (add_items_to_cart env ings).total_added =
      (add_items_to_cart env ings).items.countP isAddedItem ∧
    (add_items_to_cart env ings).total_errors =
      (add_items_to_cart env ings).items.countP isErrorItem ∧
    (add_items_to_cart env ings).total_not_found =
      (add_items_to_cart env ings).items.countP isNotFoundItem := by
  obtain ⟨h1, h2, h3⟩ := runItems_countsInv env.outcomes ings 0 {} ⟨rfl, rfl, rfl⟩
  obtain ⟨f1, f2, f3, f4⟩ := applyCartTotalProbe_frame env.probe (runItems env.outcomes 0 ings {})
  have hlen : (runItems env.outcomes 0 ings {}).items.length = ings.length := by
    rw [runItems_length env.outcomes ings 0 {}]
    simp
  have hpart := countP_partition (runItems env.outcomes 0 ings {}).items
  unfold add_items_to_cart
  refine ⟨?_, ?_, ?_, ?_⟩
  · rw [f2, f3, f4, h1, h2, h3]
    omega
  · rw [f2, f1, h1]
  · rw [f4, f1, h2]
  · rw [f3, f1, h3]

/-- C10: the orchestrator counts a failed item in `total_errors` exactly when
its `error` is a non-empty string (`elif item_result.error:` is a truthiness
test), and in `total_not_found` otherwise; concretely, a run whose item was
produced by an exception with an empty message has `error = some ""` yet
counts as not-found. -/
theorem claim10_truthiness_classification :
    (∀ (env : CartEnv) (ings : List String),
      (add_items_to_cart env ings).total_errors =
        (add_items_to_cart env ings).items.countP
          (fun it => !it.success && pyTruthyStr it.error) ∧
      (add_items_to_cart env ings).total_not_found =
        (add_items_to_cart env ings).items.countP
          (fun it => !it.success && !pyTruthyStr it.error)) ∧
    ((add_items_to_cart ⟨fun _ => ItemOutcome.raised "", none⟩ ["milk"]).items.map
        (fun it => it.error) = [some ""] ∧
     (add_items_to_cart ⟨fun _ => ItemOutcome.raised "", none⟩ ["milk"]).total_not_found = 1 ∧
     (add_items_to_cart ⟨fun _ => ItemOutcome.raised "", none⟩ ["milk"]).total_errors = 0) := by
  constructor
  · intro env ings
    obtain ⟨h1, h2, h3⟩ := runItems_countsInv env.outcomes ings 0 {} ⟨rfl, rfl, rfl⟩
    obtain ⟨f1, f2, f3, f4⟩ :=
      applyCartTotalProbe_frame env.probe (runItems env.outcomes 0 ings {})
    unfold add_items_to_cart
    constructor
    · rw [f4, f1]
      exact h2
    · rw [f3, f1]
      exact h3
  · refine ⟨?_, ?_, ?_⟩ <;> decide

/-! ## Claim about the shape of `_get_search_suggestion` (C7) -/

/-- C7: `_get_search_suggestion` first cleans its input; when the cleaned
text splits into more than two words the result is exactly the last two of
them joined by one space, otherwise it is the cleaned text behind the generic
annotation prefix.  The embedding is a total function, matching the claim
that the operation never fails. -/
theorem claim7_suggestion_shape (s : String) :
    (2 < (pySplit (_clean_ingredient_for_search s)).length →
      ∃ pre a b, pySplit (_clean_ingredient_for_search s) = pre ++ [a, b] ∧
        _get_search_suggestion s = a ++ " " ++ b) ∧
    ((pySplit (_clean_ingredient_for_search s)).length ≤ 2 →
      _get_search_suggestion s = "Try simpler search: " ++ _clean_ingredient_for_search s) := by
  constructor
  · intro h
    have hlen : ((pySplit (_clean_ingredient_for_search s)).drop
        ((pySplit (_clean_ingredient_for_search s)).length - 2)).length = 2 := by
      rw [List.length_drop]; omega
    obtain ⟨a, b, hab⟩ := List.length_eq_two.mp hlen
    refine ⟨(pySplit (_clean_ingredient_for_search s)).take
        ((pySplit (_clean_ingredient_for_search s)).length - 2), a, b, ?_, ?_⟩
    · rw [← hab]
      exact (List.take_append_drop _ _).symm
    · show (if 2 < (pySplit (_clean_ingredient_for_search s)).length then
          pyJoinSpace ((pySplit (_clean_ingredient_for_search s)).drop
            ((pySplit (_clean_ingredient_for_search s)).length - 2))
        else "Try simpler search: " ++ _clean_ingredient_for_search s) = a ++ " " ++ b
      rw [if_pos h, hab]
      rfl
  · intro h
    show (if 2 < (pySplit (_clean_ingredient_for_search s)).length then
        pyJoinSpace ((pySplit (_clean_ingredient_for_search s)).drop
          ((pySplit (_clean_ingredient_for_search s)).length - 2))
      else "Try simpler search: " ++ _clean_ingredient_for_search s) =
      "Try simpler search: " ++ _clean_ingredient_for_search s
    rw [if_neg (by omega)]

/-- Witness for C7 at the three-word input "aa bb cc" (already clean), whose
suggestion is "bb cc". -/
theorem claim7_suggestion_shape_witness :
    2 < (pySplit (_clean_ingredient_for_search "aa bb cc")).length ∧
    (∃ pre a b, pySplit (_clean_ingredient_for_search "aa bb cc") = pre ++ [a, b] ∧
      _get_search_suggestion "aa bb cc" = a ++ " " ++ b) :=
  ⟨by decide, (claim7_suggestion_shape "aa bb cc").1 (by decide)⟩

/-! ## Claims about `_clean_ingredient_for_search` (C8, C9) -/

/-- C8: the two spec examples.  The first input cleans to
"boneless chicken thighs", which contains "chicken thighs" as a substring and
contains none of "2", "lbs", "diced"; the second cleans to exactly
"tomatoes" (parenthetical, quantity and unit fully removed). -/
theorem claim8_clean_examples :
    _clean_ingredient_for_search "2 lbs boneless chicken thighs, diced" =
      "boneless chicken thighs" ∧
    "chicken thighs".data <:+: "boneless chicken thighs".data ∧
    ¬("2".data <:+: "boneless chicken thighs".data) ∧
    ¬("lbs".data <:+: "boneless chicken thighs".data) ∧
    ¬("diced".data <:+: "boneless chicken thighs".data) ∧
    _clean_ingredient_for_search "1 (14 oz) can diced tomatoes" = "tomatoes" ∧
    "tomatoes".data <:+: (_clean_ingredient_for_search "1 (14 oz) can diced tomatoes").data := by
  exact ⟨by decide, by decide, by decide, by decide, by decide, by decide, by decide⟩

/-! ### Identity lemmas for the cleaning pipeline on already-normalized input -/

theorem stripLeadingQuantity_id {cs : List Char} (h : ∀ c ∈ cs, pyIsDigit c = false) :
    stripLeadingQuantity cs = cs := by
  cases cs with
  | nil => rfl
  | cons c rest => simp [stripLeadingQuantity, h c (List.mem_cons_self c rest)]

theorem removeParensGo_id : ∀ (fuel : Nat) (cs : List Char),
    '(' ∉ cs → removeParensGo fuel cs = cs
  | 0, cs, _ => rfl
  | _ + 1, [], _ => rfl
  | fuel + 1, c :: rest, h => by
    have hc : ¬(c = '(') := fun hh => h (by rw [hh]; exact List.mem_cons_self _ _)
    have ih := removeParensGo_id fuel rest (fun hm => h (List.mem_cons_of_mem c hm))
    simp [removeParensGo, hc, ih]

theorem subWordGo_id (alts : List (List Char)) (punct : Char) :
    ∀ (fuel : Nat) (prevW : Bool) (cs : List Char),
      (∀ n, prevIsWordAt prevW cs n = false → tryAlts alts punct (cs.drop n) = none) →
      subWordGo alts punct fuel prevW cs = cs
  | 0, _, _, _ => rfl
  | _ + 1, _, [], _ => rfl
  | fuel + 1, prevW, c :: rest, h => by
    have hrest : ∀ n, prevIsWordAt (pyIsWord c) rest n = false →
        tryAlts alts punct (rest.drop n) = none := by
      intro n hn
      cases n with
      | zero => exact h 1 hn
      | succ m => exact h (m + 2) hn
    have ih := subWordGo_id alts punct fuel (pyIsWord c) rest hrest
    cases prevW with
    | true => simp [subWordGo, ih]
    | false =>
      have h0 : tryAlts alts punct (c :: rest) = none := h 0 rfl
      simp [subWordGo, h0, ih]

theorem foldl_subWord_id : ∀ (ws : List (List Char)) (cs : List Char),
    (∀ w ∈ ws, ∀ n, prevIsWordAt false cs n = false → tryAlts [w] ',' (cs.drop n) = none) →
    ws.foldl (fun acc w => subWord [w] ',' acc) cs = cs
  | [], _, _ => rfl
  | w :: more, cs, h => by
    have h1 : subWord [w] ',' cs = cs :=
      subWordGo_id [w] ',' cs.length false cs (h w (List.mem_cons_self w more))
    rw [List.foldl_cons, h1]
    exact foldl_subWord_id more cs (fun w2 hm => h w2 (List.mem_cons_of_mem w hm))

theorem collapseSpaces_id : ∀ cs : List Char, wsOk cs = true → collapseSpaces cs = cs
  | [], _ => rfl
  | [c], h => by
    by_cases hc : pyIsSpace c = true
    · have hcs : c = ' ' := by
        simp [wsOk, hc] at h
        exact h
      simp [collapseSpaces, hc, hcs]
    · simp [collapseSpaces, hc]
  | c1 :: c2 :: rest, h => by
    have hsplit : (!pyIsSpace c1 || ((c1 == ' ') && !pyIsSpace c2)) = true ∧
        wsOk (c2 :: rest) = true := by
      simpa [wsOk, Bool.and_eq_true] using h
    have ih := collapseSpaces_id (c2 :: rest) hsplit.2
    by_cases h1 : pyIsSpace c1 = true
    · have h2 := hsplit.1
      rw [h1] at h2
      simp at h2
      simp [collapseSpaces, h1, h2.1, h2.2, ih]
    · simp [collapseSpaces, h1, ih]

theorem dropWhile_id_of_headD (p : Char → Bool) (cs : List Char)
    (h : p (cs.headD 'a') = false) : cs.dropWhile p = cs := by
  cases cs with
  | nil => rfl
  | cons c rest =>
    have hc : p c = false := h
    simp [List.dropWhile, hc]

theorem pyStripEdges_id (cs : List Char) (h1 : stripChar (cs.headD 'a') = false)
    (h2 : stripChar (cs.reverse.headD 'a') = false) : pyStripEdges cs = cs := by
  unfold pyStripEdges
  rw [dropWhile_id_of_headD stripChar cs h1, dropWhile_id_of_headD stripChar cs.reverse h2,
    List.reverse_reverse]

theorem tryAlts_nil_unit : tryAlts unitAlts '.' [] = none := by decide

theorem tryAlts_nil_prep : ∀ w ∈ prepWords, tryAlts [w] ',' [] = none := by decide

/-- A position whose predecessor is not a word character is a leading word
boundary (for a full pass, which starts with `prevW = false`). -/
theorem atWordBoundary_of_prev {cs : List Char} {n : Nat}
    (hb : prevIsWordAt false cs n = false) : atWordBoundary cs n = true := by
  cases n with
  | zero => rfl
  | succ m =>
    have hb2 : pyIsWord (cs.getD m ' ') = false := hb
    show (!pyIsWord (cs.getD m ' ')) = true
    rw [hb2]
    rfl

theorem noUnitOccurrence_all {s : String} (h : noUnitOccurrence s = true) (n : Nat)
    (hb : prevIsWordAt false s.data n = false) :
    tryAlts unitAlts '.' (s.data.drop n) = none := by
  by_cases hn : n < s.data.length + 1
  · have h2 := List.all_eq_true.mp h n (List.mem_range.mpr hn)
    rw [atWordBoundary_of_prev hb] at h2
    simp only [Bool.not_true, Bool.false_or] at h2
    exact Option.isNone_iff_eq_none.mp h2
  · rw [List.drop_eq_nil_of_le (by omega)]
    exact tryAlts_nil_unit

theorem noPrepOccurrence_all {s : String} (h : noPrepOccurrence s = true) :
    ∀ w ∈ prepWords, ∀ n, prevIsWordAt false s.data n = false →
      tryAlts [w] ',' (s.data.drop n) = none := by
  intro w hw n hb
  have hall := List.all_eq_true.mp h w hw
  by_cases hn : n < s.data.length + 1
  · have h2 := List.all_eq_true.mp hall n (List.mem_range.mpr hn)
    rw [atWordBoundary_of_prev hb] at h2
    simp only [Bool.not_true, Bool.false_or] at h2
    exact Option.isNone_iff_eq_none.mp h2
  · rw [List.drop_eq_nil_of_le (by omega)]
    exact tryAlts_nil_prep w hw

/-- C9 counterexample: "a  b" contains no digit, no unit word and no
preparation word, yet `_clean_ingredient_for_search` changes it (the double
space is collapsed), so cleaning is not the identity — and in particular not
idempotent onto the original — under the hypotheses of the claim alone. -/
theorem claim9_counterexample :
    noDigits "a  b" = true ∧ noUnitOccurrence "a  b" = true ∧
    noPrepOccurrence "a  b" = true ∧
    _clean_ingredient_for_search "a  b" ≠ "a  b" := by decide

/-- C9 (amended): for a string with no digits, no whole-word unit token, no
whole-word preparation token, and in addition no parenthesis, all whitespace
already being single plain spaces, and no leading/trailing space, comma,
period or hyphen, cleaning returns it unchanged, and hence cleaning twice
returns it unchanged. -/
theorem claim9_amended_idempotent (s : String)
    (h1 : noDigits s = true) (h2 : noParens s = true) (h3 : noUnitOccurrence s = true)
    (h4 : noPrepOccurrence s = true) (h5 : spacingNormalized s = true)
    (h6 : noEdgeStripChars s = true) :
    _clean_ingredient_for_search s = s ∧
    _clean_ingredient_for_search (_clean_ingredient_for_search s) = s := by
  have hd : ∀ c ∈ s.data, pyIsDigit c = false := by
    intro c hc
    have hh := List.all_eq_true.mp h1 c hc
    simpa using hh
  have hp : '(' ∉ s.data := by
    intro hm
    have hh := List.all_eq_true.mp h2 '(' hm
    simp at hh
  have hedge : stripChar (s.data.headD 'a') = false ∧
      stripChar (s.data.reverse.headD 'a') = false := by
    have hh := h6
    unfold noEdgeStripChars at hh
    rw [Bool.and_eq_true, Bool.not_eq_true', Bool.not_eq_true'] at hh
    exact hh
  have hclean : _clean_ingredient_for_search s = s := by
    show String.mk (pyStripEdges (collapseSpaces (prepWords.foldl
        (fun acc w => subWord [w] ',' acc)
        (subWord unitAlts '.' (removeParens (stripLeadingQuantity s.data)))))) = s
    rw [stripLeadingQuantity_id hd]
    rw [show removeParens s.data = s.data from removeParensGo_id s.data.length s.data hp]
    rw [show subWord unitAlts '.' s.data = s.data from
      subWordGo_id unitAlts '.' s.data.length false s.data (noUnitOccurrence_all h3)]
    rw [foldl_subWord_id prepWords s.data (noPrepOccurrence_all h4)]
    rw [collapseSpaces_id s.data h5]
    rw [pyStripEdges_id s.data hedge.1 hedge.2]
  exact ⟨hclean, by rw [hclean, hclean]⟩

/-- Witness for C9 (amended) at the already-clean input "egg": the token `g`
occurs inside it only without a leading word boundary, so "egg" contains no
whole-word unit token and cleaning leaves it unchanged. -/
theorem claim9_amended_idempotent_witness :
    (noDigits "egg" = true ∧ noParens "egg" = true ∧
      noUnitOccurrence "egg" = true ∧ noPrepOccurrence "egg" = true ∧
      spacingNormalized "egg" = true ∧ noEdgeStripChars "egg" = true) ∧
    _clean_ingredient_for_search "egg" = "egg" ∧
    _clean_ingredient_for_search (_clean_ingredient_for_search "egg") = "egg" :=
  ⟨by decide,
   (claim9_amended_idempotent "egg" (by decide) (by decide) (by decide) (by decide)
      (by decide) (by decide)).1,
   (claim9_amended_idempotent "egg" (by decide) (by decide) (by decide) (by decide)
      (by decide) (by decide)).2⟩

end Prepwise
